import Mathlib

/-!
Verification development for the personal-assistant RAG backend (Go).

Shallow embedding conventions:
* Go strings and byte slices are modelled as `List Char` (`Str`); Go indexes
  bytes, and every string operation relevant here (slicing, `strings.LastIndex`
  with ASCII separators, SHA-256 input, `filepath.Ext`) is byte-positional, so
  list positions model byte positions faithfully.
* Go `int` arithmetic on indices is modelled by `Nat`: the one place the Go
  code clamps a possibly negative value to zero (`start = breakPoint - overlap;
  if start < 0 { start = 0 }`) is exactly `Nat` truncated subtraction.
* The chunking loop in Go does not always terminate (this development proves
  it), so its embedding takes explicit fuel `text.length + 2`; a terminating
  run of the Go loop visits strictly fewer than `text.length + 1` distinct
  start offsets (a repeated offset means the deterministic loop cycles
  forever), so `none` is returned exactly on the non-terminating inputs.
* Remote calls (OpenAI embeddings/completions) are driven by explicit oracles
  describing the network's responses; fallible operations return `Except`.
-/

namespace RagSpec

abbrev Str := List Char

abbrev Vec := List Int

/-! ## Chunker — `internal/utils/chunker.go`, `ChunkText` -/

/-- Model of Go `strings.LastIndex s pat`: the largest index at which `pat`
occurs in `s` (as `Option` instead of Go's `-1` sentinel). -/
def lastIndex (s pat : List Char) : Option Nat :=
  ((List.range (s.length + 1)).filter (fun i => pat.isPrefixOf (s.drop i))).max?

/-- The separator preference order from `ChunkText`:
paragraph break, line break, sentence end, space. -/
def separators : List (List Char) :=
  [['\n', '\n'], ['\n'], ['.', ' '], [' ']]

/-- The separator scan in `ChunkText`: try each separator in order with
`strings.LastIndex` on the search window; on the first hit return
`idx + len(sep)`, the break offset relative to the window start. -/
def findSep : List (List Char) → List Char → Option Nat
  | [], _ => none
  | sep :: rest, window =>
    match lastIndex window sep with
    | some idx => some (idx + sep.length)
    | none => findSep rest window

/-- `searchRange := chunkSize / 5; if searchRange < 20 { searchRange = 20 }`. -/
def searchRange (chunkSize : Nat) : Nat :=
  max (chunkSize / 5) 20

/-- The breakpoint computed by one iteration of the `ChunkText` loop: scan the
last `searchRange` positions of the current window for a separator; if none is
found, hard-break at `start + chunkSize`.
(When `start + chunkSize < searchRange` the Go code would panic on a negative
slice index; `Nat` subtraction truncates instead. All theorems below stay in
the regime `searchRange ≤ chunkSize`, where the two coincide.) -/
def breakPointAt (text : Str) (chunkSize start : Nat) : Nat :=
  let e := start + chunkSize
  let sr := searchRange chunkSize
  let window := (text.drop (start + chunkSize - sr)).take (e - (start + chunkSize - sr))
  match findSep separators window with
  | some off => start + chunkSize - sr + off
  | none => e

/-- The start-offset update at the end of one `ChunkText` iteration:
`start = breakPoint - overlap; if start < 0 { start = 0 };
if start >= breakPoint { start = breakPoint }`.
`Nat` subtraction is the `< 0` clamp. -/
def nextStart (breakPoint overlap : Nat) : Nat :=
  let s := breakPoint - overlap
  if s ≥ breakPoint then breakPoint else s

/-- The `for start < len(text)` loop of `ChunkText`, with fuel.
`none` signals that the Go loop does not terminate (see the header comment:
any terminating run fits in fuel `text.length + 2`). -/
def chunkLoop (text : Str) (chunkSize overlap : Nat) : Nat → Nat → Option (List Str)
  | _start, 0 => none
  | start, fuel + 1 =>
    if start < text.length then
      if start + chunkSize ≥ text.length then
        some [text.drop start]
      else
        let bp := breakPointAt text chunkSize start
        let chunk := (text.drop start).take (bp - start)
        match chunkLoop text chunkSize overlap (nextStart bp overlap) fuel with
        | some rest => some (chunk :: rest)
        | none => none
    else
      some []

/-- `ChunkText` from `internal/utils/chunker.go`: empty input yields `nil`;
input no longer than `chunkSize` is returned whole; otherwise the scanning
loop runs.  `none` = the Go loop diverges. -/
def chunkText (text : Str) (chunkSize overlap : Nat) : Option (List Str) :=
  if text.length = 0 then some []
  else if text.length ≤ chunkSize then some [text]
  else chunkLoop text chunkSize overlap 0 (text.length + 2)

/-- Removing the declared overlaps: keep the first chunk whole and drop the
first `overlap` units of every later chunk, then concatenate. -/
def reconstruct (overlap : Nat) : List Str → Str
  | [] => []
  | c :: rest => c ++ (rest.map (fun d => d.drop overlap)).flatten

/-- Concrete 30-character input used to exercise the chunking loop:
six letters, a single space, then twenty-three letters. -/
def text30 : Str := List.replicate 6 'a' ++ [' '] ++ List.replicate 23 'b'

/-! ## Embedding generator — `internal/service/embedding_service.go`

The network is modelled by an oracle giving, per batch and per attempt
number, the outcome of `httpClient.Do` together with the result of later
JSON-decoding that response's body. -/

/-- One element of the embedding response `data` array: the declared `index`
and the `embedding` vector.  (Go declares `Index int`; a negative index would
crash the Go program with a slice-bounds panic rather than return an error,
so the model uses `Nat`.) -/
structure EmbItem where
  index : Nat
  embedding : Vec
  deriving DecidableEq

/-- Outcome of one `httpClient.Do` attempt: a transport error (`err != nil`,
`resp == nil`), or a response with an HTTP status whose body decodes to the
given `data` array (`none` = the body is not valid JSON for the schema). -/
inductive Attempt where
  | transportFailure
  | response (status : Nat) (body : Option (List EmbItem))
  deriving DecidableEq

/-- Errors produced by the embedding client (`fmt.Errorf` sites). -/
inductive EmbError where
  | noTexts
  | transport
  | apiStatus (status : Nat)
  | noResponse
  | decodeFailed
  | invalidIndex (i : Nat)
  | noEmbeddings
  | batchFailed (batch : Nat) (e : EmbError)
  deriving DecidableEq

/-- The retry loop of `generateBatch` (`maxRetries = 3`): break on a 200,
retry after a 429, fail immediately on a transport error or any other
status.  `remaining` counts loop iterations still allowed, `attempt` is the
Go loop variable, and the third argument is the current value of the `resp`
variable (`none` = nil).  When the iterations are exhausted the loop falls
through with whatever `resp` holds — in particular the final 429 response. -/
def retryLoop (attempts : Nat → Attempt) :
    Nat → Nat → Option (Nat × Option (List EmbItem)) →
    Except EmbError (Option (Nat × Option (List EmbItem)))
  | 0, _attempt, resp => .ok resp
  | remaining + 1, attempt, _resp =>
    match attempts attempt with
    | .transportFailure => .error .transport
    | .response status body =>
      if status = 200 then .ok (some (status, body))
      else if status = 429 then retryLoop attempts remaining (attempt + 1) (some (status, body))
      else .error (.apiStatus status)

/-- The reassembly loop of `generateBatch`: `embeddings` starts as
`make([][]float32, len(data))` (all-nil entries) and each response item is
written at its declared index, after the bounds check
`data.Index >= len(embeddings)`.  `List.set` keeps the length constant, so
`acc.length` is always the initial `len(data)`. -/
def fillEmbeddings : List Vec → List EmbItem → Except EmbError (List Vec)
  | acc, [] => .ok acc
  | acc, item :: rest =>
    if item.index ≥ acc.length then .error (.invalidIndex item.index)
    else fillEmbeddings (acc.set item.index item.embedding) rest

/-- `generateBatch`: run the retry loop, then decode and reassemble whatever
response it left — the Go code performs no status check after the loop. -/
def generateBatch (_texts : List Str) (attempts : Nat → Attempt) :
    Except EmbError (List Vec) :=
  match retryLoop attempts 3 0 none with
  | .error e => .error e
  | .ok none => .error .noResponse
  | .ok (some (_status, none)) => .error .decodeFailed
  | .ok (some (_status, some data)) =>
    fillEmbeddings (List.replicate data.length []) data

/-- The batching loop of `GenerateEmbeddings`
(`for i := 0; i < len(texts); i += batchSize`, `batchSize = 100`):
`remaining` is the number of iterations left (the loop runs exactly
`⌈len/100⌉` times), `i` the Go loop index.  The oracle is keyed by the batch
number `i / 100`, which is also the number wrapped into a batch error. -/
def batchesLoop (texts : List Str) (oracle : Nat → Nat → Attempt) :
    Nat → Nat → Except EmbError (List Vec)
  | 0, _i => .ok []
  | remaining + 1, i =>
    match generateBatch ((texts.drop i).take 100) (oracle (i / 100)) with
    | .error e => .error (.batchFailed (i / 100) e)
    | .ok es =>
      match batchesLoop texts oracle remaining (i + 100) with
      | .error e => .error e
      | .ok rest => .ok (es ++ rest)

/-- `GenerateEmbeddings`: reject an empty input, then process 100-element
batches in order, concatenating the per-batch results. -/
def generateEmbeddings (texts : List Str) (oracle : Nat → Nat → Attempt) :
    Except EmbError (List Vec) :=
  if texts.length = 0 then .error .noTexts
  else batchesLoop texts oracle ((texts.length + 99) / 100) 0

/-- `GenerateEmbedding`: embed a single text as a one-element batch and
return the first vector. -/
def generateEmbedding (text : Str) (oracle : Nat → Nat → Attempt) :
    Except EmbError Vec :=
  match generateEmbeddings [text] oracle with
  | .error e => .error e
  | .ok [] => .error .noEmbeddings
  | .ok (v :: _) => .ok v

/-- `GetDimensions` for `text-embedding-3-small`. -/
def getDimensions : Nat := 1536

/-- A network oracle that answers HTTP 429 on every attempt of every batch,
with a final body that decodes to a JSON object carrying no `data` entries
(for example `\x7b\x7d`). -/
def oracle429 : Nat → Nat → Attempt :=
  fun _batch _attempt => .response 429 (some [])

/-- A network oracle whose every batch succeeds on the first attempt with a
response in canonical order: entry `j` carries index `j` and a vector tied
to the batch number and the position. -/
def oracleCanonical (texts : List Str) (embOf : Nat → Nat → Vec) :
    Nat → Nat → Attempt :=
  fun batch _attempt =>
    .response 200
      (some (((List.range ((texts.drop (100 * batch)).take 100).length)).map
        (fun j => ⟨j, embOf batch j⟩)))

/-! ## Data model and persistent state

`Document` mirrors the `documents` row (`internal/model`, `postgres.go`);
`VectorPoint` mirrors the Qdrant point built in `UploadDocument` (payload
keys `document_id`, `user_id`, `filename`, `file_type`, `chunk_index`,
`content`).  `SysState` bundles the externally-owned stores the services
read and write: the Postgres tables, the object store, and the Qdrant
collections. -/

structure Document where
  id : Str
  userID : Str
  filename : Str
  fileType : Str
  fileSize : Int
  fileHash : Str
  storagePath : Str
  totalChunks : Nat
  deriving DecidableEq

structure VectorPoint where
  pid : Str
  vector : Vec
  documentID : Str
  userID : Str
  filename : Str
  fileType : Str
  chunkIndex : Nat
  content : Str
  deriving DecidableEq

structure SysState where
  documents : List Document
  objects : List (Str × Str)
  collections : List (Str × Nat)
  vectors : List VectorPoint
  queryHistory : List (Str × Str × Str)
  nextID : Nat
  deriving DecidableEq

/-- Error values of the service layer, one per `fmt.Errorf` site reached in
the modelled paths. -/
inductive SvcError where
  | unsupportedType (ext : Str)
  | fileTooLarge
  | noTextContent
  | embeddingFailed (e : EmbError)
  | createFailed
  | insertVectorsNotImplemented
  | searchNotImplemented
  | deleteVectorsNotImplemented
  | documentNotFound
  | unauthorized
  | completionFailed
  deriving DecidableEq

/-- Observable side effects of a service call, in execution order. -/
inductive Event where
  | embedCall (texts : List Str)
  | storPut (key : Str)
  | storDel (key : Str)
  | dbInsert
  | dbDelete (docId : Str)
  | vecEnsure (name : Str)
  | vecInsert (userID : Str) (count : Nat)
  | vecDelete (userID docId : Str)
  | vecSearched (userID : Str)
  | llmCall
  | historySave
  deriving DecidableEq

/-! ## Repositories and storage drivers -/

/-- Postgres `gen_random_uuid` modelled by a counter rendered to characters. -/
def genID (n : Nat) : Str := 'd' :: Nat.toDigits 10 n

/-- `DocumentRepository.Create`: INSERT INTO documents.  The migration in
`postgres.go` declares `CONSTRAINT unique_user_file_hash UNIQUE (user_id,
file_hash)`, so the insert fails whenever a row with the same owner and
hash already exists; on success the database assigns the id. -/
def docCreate (s : SysState) (d : Document) : Except SvcError (Document × SysState) :=
  if s.documents.any (fun d0 => d0.userID == d.userID && d0.fileHash == d.fileHash) then
    .error .createFailed
  else
    let assigned := { d with id := genID s.nextID }
    .ok (assigned,
      { s with documents := s.documents ++ [assigned], nextID := s.nextID + 1 })

/-- `DocumentRepository.GetByID`: SELECT by id, `sql.ErrNoRows` becomes
"document not found". -/
def docGetByID (s : SysState) (docId : Str) : Except SvcError Document :=
  match s.documents.find? (fun d => d.id == docId) with
  | none => .error .documentNotFound
  | some d => .ok d

/-- `DocumentRepository.Delete`: DELETE by id; zero rows affected is the
error "document not found" (so a second delete of the same id errors). -/
def docDelete (s : SysState) (docId : Str) : Except SvcError SysState :=
  if s.documents.any (fun d => d.id == docId) then
    .ok { s with documents := s.documents.filter (fun d => !(d.id == docId)) }
  else .error .documentNotFound

/-- `VectorRepository.GetCollectionName`: `user_{id}_docs`. -/
def getCollectionName (userID : Str) : Str :=
  ['u', 's', 'e', 'r', '_'] ++ userID ++ ['_', 'd', 'o', 'c', 's']

/-- `VectorRepository.EnsureCollection` via `CollectionExists` +
`CreateCollection` (cosine metric, given dimensionality). -/
def ensureCollection (s : SysState) (userID : Str) (dim : Nat) : SysState :=
  let name := getCollectionName userID
  if s.collections.any (fun c => c.1 == name) then s
  else { s with collections := s.collections ++ [(name, dim)] }

/-- `VectorRepository.InsertVectors` — a stub in the repository: it converts
the points, then returns "insert vectors not fully implemented yet". -/
def insertVectors (_s : SysState) (_userID : Str) (_points : List VectorPoint) :
    Except SvcError SysState :=
  .error .insertVectorsNotImplemented

/-- `VectorRepository.Search` — a stub in the repository: it computes the
collection name, then returns "search not fully implemented yet" for every
input, with or without an existing collection. -/
def vectorSearch (_s : SysState) (userID : Str) (_vector : Vec) (_limit : Nat) :
    Except SvcError (List VectorPoint) :=
  let _collectionName := getCollectionName userID
  .error .searchNotImplemented

/-- `VectorRepository.DeleteByDocumentID` — a stub in the repository:
returns "delete by document ID not fully implemented yet" for every input. -/
def deleteVectorsByDocumentID (_s : SysState) (userID _documentID : Str) :
    Except SvcError SysState :=
  let _collectionName := getCollectionName userID
  .error .deleteVectorsNotImplemented

/-- Object-storage `UploadFile` (local and S3 drivers): write the bytes at
the key, overwriting any previous object. -/
def storagePut (s : SysState) (key content : Str) : SysState :=
  { s with objects := s.objects.filter (fun kv => !(kv.1 == key)) ++ [(key, content)] }

/-- Object-storage `DeleteFile`: remove the key; deleting a missing key is
not an error (explicitly in the local driver, and by S3 semantics). -/
def storageDelete (s : SysState) (key : Str) : SysState :=
  { s with objects := s.objects.filter (fun kv => !(kv.1 == key)) }

/-! ## Document service — `internal/service/document_service.go` -/

/-- The allow-list from `UploadDocument`. -/
def allowedExtensions : List Str :=
  [['.', 'p', 'd', 'f'], ['.', 't', 'x', 't'], ['.', 'm', 'd'],
   ['.', 'j', 's', 'o', 'n'], ['.', 'c', 's', 'v']]

/-- Model of Go `filepath.Ext`: the suffix starting at the final dot, empty
when there is no dot. -/
def fileExt (name : Str) : Str :=
  if name.contains '.' then
    '.' :: (name.reverse.takeWhile (fun c => !(c == '.'))).reverse
  else []

/-- `strings.ToLower(filepath.Ext(filename))`. -/
def lowerExt (name : Str) : Str := (fileExt name).map Char.toLower

/-- `maxSize = 10 * 1024 * 1024`. -/
def maxFileSize : Int := 10 * 1024 * 1024

/-- An uploaded file as the handler passes it in: the multipart header's
filename and declared size, and the bytes read from the part. -/
structure UploadFile where
  filename : Str
  size : Int
  content : Str
  deriving DecidableEq

/-- The Qdrant points built in `UploadDocument`: id `{docID}_chunk_{i}`,
payload carrying document id, owner, filename, file type, chunk index and
chunk text. -/
def buildPoints (doc : Document) (userID : Str) (file : UploadFile) (ext : Str)
    (chunks : List Str) (embeddings : List Vec) : List VectorPoint :=
  (List.range embeddings.length).map (fun i =>
    { pid := doc.id ++ ['_', 'c', 'h', 'u', 'n', 'k', '_'] ++ Nat.toDigits 10 i
      vector := embeddings.getD i []
      documentID := doc.id
      userID := userID
      filename := file.filename
      fileType := ext
      chunkIndex := i
      content := chunks.getD i [] })

/-- `DocumentService.UploadDocument`.  Returns the call's result, the state
after the call, and the trace of side effects in order.  `hashFn` stands for
hex-encoded SHA-256 over the raw bytes; `embedOracle` drives the embedding
client.  Reading the multipart part is modelled as yielding `file.content`;
text extraction is the identity for every allowed extension (the `.pdf`
branch is also `string(content)` in the code).  The chunking call uses the
hard-coded `ChunkText(text, 500, 50)`; those parameters satisfy
`50 + searchRange 500 ≤ 500`, so by `chunkText_terminates` the `Option`
never actually yields `none` and `getD []` is unreachable padding. -/
def uploadDocument (hashFn : Str → Str) (embedOracle : Nat → Nat → Attempt)
    (s : SysState) (userID : Str) (file : UploadFile) :
    Except SvcError Document × SysState × List Event :=
  let ext := lowerExt file.filename
  if ¬ ext ∈ allowedExtensions then (.error (.unsupportedType ext), s, [])
  else if file.size > maxFileSize then (.error .fileTooLarge, s, [])
  else
    let fileHash := hashFn file.content
    let text := file.content
    let chunks := (chunkText text 500 50).getD []
    if chunks.isEmpty then (.error .noTextContent, s, [])
    else
      match generateEmbeddings chunks embedOracle with
      | .error e => (.error (.embeddingFailed e), s, [.embedCall chunks])
      | .ok embeddings =>
        let storagePath := userID ++ ('/' :: fileHash) ++ ('/' :: file.filename)
        let s1 := storagePut s storagePath file.content
        let doc : Document :=
          { id := [], userID := userID, filename := file.filename, fileType := ext,
            fileSize := file.size, fileHash := fileHash, storagePath := storagePath,
            totalChunks := chunks.length }
        match docCreate s1 doc with
        | .error e => (.error e, s1, [.embedCall chunks, .storPut storagePath])
        | .ok (doc', s2) =>
          let s3 := ensureCollection s2 userID getDimensions
          let points := buildPoints doc' userID file ext chunks embeddings
          match insertVectors s3 userID points with
          | .error e =>
            (.error e, s3,
              [.embedCall chunks, .storPut storagePath, .dbInsert,
               .vecEnsure (getCollectionName userID), .vecInsert userID points.length])
          | .ok s4 =>
            (.ok doc', s4,
              [.embedCall chunks, .storPut storagePath, .dbInsert,
               .vecEnsure (getCollectionName userID), .vecInsert userID points.length])

/-- `DocumentService.GetDocument`: fetch by id, then verify ownership;
a mismatch is the "unauthorized" error and the document is not returned. -/
def getDocument (s : SysState) (userID docId : Str) : Except SvcError Document :=
  match docGetByID s docId with
  | .error e => .error e
  | .ok doc => if ¬ doc.userID = userID then .error .unauthorized else .ok doc

/-- `DocumentService.DeleteDocument`: ownership check via `GetDocument`,
then delete the stored object, then the vector records, then the metadata
row, aborting at the first failing step. -/
def deleteDocument (s : SysState) (userID docId : Str) :
    Except SvcError Unit × SysState × List Event :=
  match getDocument s userID docId with
  | .error e => (.error e, s, [])
  | .ok doc =>
    let s1 := storageDelete s doc.storagePath
    match deleteVectorsByDocumentID s1 userID docId with
    | .error e => (.error e, s1, [.storDel doc.storagePath, .vecDelete userID docId])
    | .ok s2 =>
      match docDelete s2 docId with
      | .error e =>
        (.error e, s2,
          [.storDel doc.storagePath, .vecDelete userID docId, .dbDelete docId])
      | .ok s3 =>
        (.ok (), s3,
          [.storDel doc.storagePath, .vecDelete userID docId, .dbDelete docId])

/-! ## RAG query engine — `internal/service/rag_service.go` -/

/-- The `"\n[Document %d]: %s\n"` marker (1-based ordinal). -/
def docMarker (i : Nat) : Str :=
  ['\n', '[', 'D', 'o', 'c', 'u', 'm', 'e', 'n', 't', ' '] ++
    Nat.toDigits 10 (i + 1) ++ [']', ':', ' ']

/-- The context block of `Query` step 3/4: each retrieved chunk text tagged
with its ordinal marker, in retrieval order. -/
def contextText (chunks : List Str) : Str :=
  (chunks.enum.map (fun p => docMarker p.1 ++ p.2 ++ ['\n'])).flatten

/-- Stand-in for the fixed English system-instruction string of `Query`
(its prose never influences control flow, so it is abbreviated here). -/
def systemPrompt : Str := ['S', 'Y', 'S']

/-- The user prompt of `Query` step 4: fixed prose around the context block
and the question (the prose pieces abbreviated, the structure kept). -/
def userPrompt (chunks : List Str) (question : Str) : Str :=
  ['C', 'T', 'X', ':'] ++ contextText chunks ++ ['\n', 'Q', ':', ' '] ++ question ++
    ['\n', 'A', ':']

/-- `RAGService.Query`: embed the question, search the owner's collection
(top 5), build the context and sources from the payloads, call the
completion API, then best-effort append the query history (its failure is
only logged, which the model represents by the append always succeeding).
`llm` is the completion-API oracle. -/
def ragQuery (embedOracle : Nat → Nat → Attempt)
    (llm : Str → Str → Except SvcError Str)
    (s : SysState) (userID question : Str) :
    Except SvcError (Str × List Str) × SysState × List Event :=
  match generateEmbedding question embedOracle with
  | .error e => (.error (.embeddingFailed e), s, [.embedCall [question]])
  | .ok qv =>
    match vectorSearch s userID qv 5 with
    | .error e => (.error e, s, [.embedCall [question], .vecSearched userID])
    | .ok results =>
      let contextChunks := results.map (fun r => r.content)
      let sources := results.map (fun r => r.filename)
      match llm systemPrompt (userPrompt contextChunks question) with
      | .error e =>
        (.error e, s, [.embedCall [question], .vecSearched userID, .llmCall])
      | .ok answer =>
        ((.ok (answer, sources)),
          { s with queryHistory := s.queryHistory ++ [(userID, question, answer)] },
          [.embedCall [question], .vecSearched userID, .llmCall, .historySave])

/-! ## Concrete states and inputs used by witnesses and counterexamples -/

/-- Owner id `u1`. -/
def u1 : Str := ['u', '1']

/-- Another owner id `u2`. -/
def u2 : Str := ['u', '2']

/-- A hash function used to instantiate parametric theorems concretely
(the hash itself is opaque to all control flow, only equality matters). -/
def hashId : Str → Str := fun content => content

/-- Bytes of a small plain-text upload. -/
def helloContent : Str := ['h', 'e', 'l', 'l', 'o']

/-- The upload `a.txt` carrying `helloContent`. -/
def fileTxt : UploadFile := { filename := ['a', '.', 't', 'x', 't'], size := 5, content := helloContent }

/-- The upload `virus.exe`. -/
def fileExe : UploadFile := { filename := ['v', 'i', 'r', 'u', 's', '.', 'e', 'x', 'e'], size := 5, content := helloContent }

/-- A network oracle whose first attempt succeeds with a single unit
vector — enough for any one-chunk batch. -/
def oracleOneVec : Nat → Nat → Attempt :=
  fun _batch _attempt => .response 200 (some [⟨0, [1]⟩])

/-- A completion oracle that always answers. -/
def llmOK : Str → Str → Except SvcError Str :=
  fun _sys _user => .ok ['o', 'k']

/-- The document row left by a previous ingestion of `helloContent` by `u1`. -/
def docHello : Document :=
  { id := ['d', '0'], userID := u1, filename := fileTxt.filename, fileType := lowerExt fileTxt.filename,
    fileSize := 5, fileHash := hashId helloContent,
    storagePath := u1 ++ ('/' :: hashId helloContent) ++ ('/' :: fileTxt.filename),
    totalChunks := 1 }

/-- State after that previous ingestion: the metadata row and the stored
object exist (the vector insert being stubbed, no vectors do). -/
def sHello : SysState :=
  { documents := [docHello], objects := [(docHello.storagePath, helloContent)],
    collections := [], vectors := [], queryHistory := [], nextID := 1 }

/-- An empty state: no documents, no objects, no collections. -/
def sEmpty : SysState :=
  { documents := [], objects := [], collections := [], vectors := [],
    queryHistory := [], nextID := 0 }

/-- A document owned by `u2`, for the cross-owner access checks. -/
def docOther : Document :=
  { id := ['d', '9'], userID := u2, filename := ['b', '.', 'm', 'd'], fileType := ['.', 'm', 'd'],
    fileSize := 3, fileHash := ['h', '9'], storagePath := ['k', '9'], totalChunks := 2 }

/-- State holding only `u2`'s document and object. -/
def sOther : SysState :=
  { documents := [docOther], objects := [(docOther.storagePath, ['x', 'y', 'z'])],
    collections := [], vectors := [], queryHistory := [], nextID := 5 }

/-! ### Chunker lemmas -/

theorem lastIndex_spec {s pat : List Char} {i : Nat} (h : lastIndex s pat = some i) :
    pat.isPrefixOf (s.drop i) ∧ i + pat.length ≤ s.length := by
  have hmem := List.max?_mem (fun a b => max_choice a b) h
  have hfil := List.mem_filter.mp hmem
  have hpre : pat.isPrefixOf (s.drop i) := by
    simpa using hfil.2
  have hran : i < s.length + 1 := List.mem_range.mp hfil.1
  have hlen : pat.length ≤ (s.drop i).length := (List.isPrefixOf_iff_prefix.mp hpre).length_le
  rw [List.length_drop] at hlen
  exact ⟨hpre, by omega⟩

theorem findSep_bounds_aux {w : List Char} {off : Nat} :
    ∀ seps : List (List Char), (∀ p ∈ seps, p ≠ []) →
      findSep seps w = some off → 1 ≤ off ∧ off ≤ w.length := by
  intro seps
  induction seps with
  | nil => intro _ h; simp [findSep] at h
  | cons sep rest ih =>
    intro hne h
    rw [findSep] at h
    cases hli : lastIndex w sep with
    | some idx =>
      rw [hli] at h
      have hspec := lastIndex_spec hli
      have hsep : sep ≠ [] := hne sep (by simp)
      have hpos : 1 ≤ sep.length := List.length_pos.mpr hsep
      cases h
      exact ⟨by omega, by omega⟩
    | none =>
      rw [hli] at h
      exact ih (fun p hp => hne p (by simp [hp])) h

theorem findSep_bounds {w : List Char} {off : Nat}
    (h : findSep separators w = some off) : 1 ≤ off ∧ off ≤ w.length :=
  findSep_bounds_aux separators (by decide) h

theorem searchRange_ge : 20 ≤ searchRange L := le_max_right _ _

theorem breakPointAt_bounds (text : Str) {L start : Nat}
    (hsr : searchRange L ≤ L) (hlen : start + L < text.length) :
    start + (L - searchRange L) + 1 ≤ breakPointAt text L start ∧
      breakPointAt text L start ≤ start + L := by
  have hsr20 : 20 ≤ searchRange L := searchRange_ge
  unfold breakPointAt
  set sr := searchRange L with hsrdef
  have hwinlen :
      ((text.drop (start + L - sr)).take (start + L - (start + L - sr))).length = sr := by
    rw [List.length_take, List.length_drop]
    omega
  cases hfs : findSep separators ((text.drop (start + L - sr)).take (start + L - (start + L - sr))) with
  | some off =>
    have hb := findSep_bounds hfs
    rw [hwinlen] at hb
    simp only [hfs]
    omega
  | none =>
    simp only [hfs]
    omega

theorem nextStart_eq (bp O : Nat) : nextStart bp O = bp - O := by
  simp only [nextStart]
  split <;> omega

theorem nextStart_progress {text : Str} {L O start : Nat}
    (hO : O + searchRange L ≤ L) (hlen : start + L < text.length) :
    start < nextStart (breakPointAt text L start) O ∧
      nextStart (breakPointAt text L start) O ≤ breakPointAt text L start := by
  have hb := breakPointAt_bounds text (by omega) hlen
  rw [nextStart_eq]
  omega

theorem chunkLoop_sound (text : Str) {L O : Nat} (hO : O + searchRange L ≤ L) :
    ∀ fuel start, start + O < text.length → text.length - start < fuel →
      ∃ c cs, chunkLoop text L O start fuel = some (c :: cs) ∧
        O < c.length ∧ reconstruct O (c :: cs) = text.drop start := by
  intro fuel
  induction fuel with
  | zero => intro start h1 h2; omega
  | succ n ih =>
    intro start h1 h2
    have hstart : start < text.length := by omega
    rw [chunkLoop, if_pos hstart]
    by_cases hfin : start + L ≥ text.length
    · rw [if_pos hfin]
      refine ⟨text.drop start, [], rfl, ?_, ?_⟩
      · rw [List.length_drop]; omega
      · simp [reconstruct]
    · rw [if_neg hfin]
      have hlen : start + L < text.length := by omega
      have hb := breakPointAt_bounds text (by omega) hlen
      have hns : nextStart (breakPointAt text L start) O = breakPointAt text L start - O :=
        nextStart_eq _ _
      obtain ⟨c', cs', hloop, hclen, hrecon⟩ :=
        ih (nextStart (breakPointAt text L start) O) (by rw [hns]; omega) (by rw [hns]; omega)
      show ∃ c cs,
          (match chunkLoop text L O (nextStart (breakPointAt text L start) O) n with
            | some rest =>
              some (((text.drop start).take (breakPointAt text L start - start)) :: rest)
            | none => none) = some (c :: cs) ∧
          O < c.length ∧ reconstruct O (c :: cs) = text.drop start
      rw [hloop]
      rw [hns] at hrecon
      refine ⟨(text.drop start).take (breakPointAt text L start - start), c' :: cs', rfl, ?_, ?_⟩
      · rw [List.length_take, List.length_drop]; omega
      · have hrecon' : c' ++ (cs'.map (fun d => d.drop O)).flatten =
            text.drop (breakPointAt text L start - O) := by
          simpa [reconstruct] using hrecon
        show (text.drop start).take (breakPointAt text L start - start) ++
            ((c' :: cs').map (fun d => d.drop O)).flatten = text.drop start
        rw [List.map_cons, List.flatten_cons]
        have hdistr : c'.drop O ++ (cs'.map (fun d => d.drop O)).flatten =
            (c' ++ (cs'.map (fun d => d.drop O)).flatten).drop O :=
          (List.drop_append_of_le_length (by omega)).symm
        rw [hdistr, hrecon', List.drop_drop]
        have hObp : breakPointAt text L start - O + O = breakPointAt text L start := by
          omega
        rw [hObp]
        have hdd : text.drop (breakPointAt text L start) =
            (text.drop start).drop (breakPointAt text L start - start) := by
          rw [List.drop_drop]
          congr 1
          omega
        rw [hdd, List.take_append_drop]

/-- With `overlap = 24`, `chunkSize = 25`, the loop on `text30` recomputes
start offset `0` forever: the divergence is real, not a fuel artifact. -/
theorem chunkLoop_diverges_on_text30 : ∀ fuel, chunkLoop text30 25 24 0 fuel = none := by
  intro fuel
  induction fuel with
  | zero => rfl
  | succ n ih =>
    have step : chunkLoop text30 25 24 0 (n + 1) =
        match chunkLoop text30 25 24 0 n with
        | some rest => some (((text30.drop 0).take 7) :: rest)
        | none => none := rfl
    rw [step, ih]

theorem chunkText_terminates (text : Str) {L O : Nat} (hO : O + searchRange L ≤ L) :
    ∃ cs, chunkText text L O = some cs ∧ reconstruct O cs = text := by
  unfold chunkText
  by_cases h0 : text.length = 0
  · refine ⟨[], by rw [if_pos h0], ?_⟩
    have : text = [] := List.length_eq_zero.mp h0
    simp [reconstruct, this]
  · rw [if_neg h0]
    by_cases hle : text.length ≤ L
    · exact ⟨[text], by rw [if_pos hle], by simp [reconstruct]⟩
    · rw [if_neg hle]
      have hsr : 20 ≤ searchRange L := searchRange_ge
      have := chunkLoop_sound text hO (text.length + 2) 0 (by omega) (by omega)
      obtain ⟨c, cs, hloop, _, hrecon⟩ := this
      exact ⟨c :: cs, hloop, by simpa using hrecon⟩

/-! ### Embedding generator lemmas -/

theorem retryLoop_first200 (attempts : Nat → Attempt) (r a : Nat)
    (rp : Option (Nat × Option (List EmbItem))) (bd : Option (List EmbItem))
    (h : attempts a = .response 200 bd) :
    retryLoop attempts (r + 1) a rp = .ok (some (200, bd)) := by
  rw [retryLoop, h]
  simp

theorem fillEmbeddings_eq_foldl (data : List EmbItem) :
    ∀ acc : List Vec, (∀ e ∈ data, e.index < acc.length) →
      fillEmbeddings acc data =
        .ok (data.foldl (fun a e => a.set e.index e.embedding) acc) := by
  induction data with
  | nil => intro acc _; rfl
  | cons item rest ih =>
    intro acc h
    have hlt : item.index < acc.length := h item (by simp)
    rw [fillEmbeddings, if_neg (by omega), List.foldl_cons]
    exact ih _ (fun e he => by rw [List.length_set]; exact h e (by simp [he]))

theorem foldlSet_length (data : List EmbItem) :
    ∀ acc : List Vec,
      (data.foldl (fun a e => a.set e.index e.embedding) acc).length = acc.length := by
  induction data with
  | nil => intro acc; rfl
  | cons item rest ih => intro acc; rw [List.foldl_cons, ih, List.length_set]

theorem foldlSet_getElem?_not_mem (data : List EmbItem) :
    ∀ (acc : List Vec) (j : Nat), (∀ e ∈ data, e.index ≠ j) →
      (data.foldl (fun a e => a.set e.index e.embedding) acc)[j]? = acc[j]? := by
  induction data with
  | nil => intro acc j _; rfl
  | cons item rest ih =>
    intro acc j h
    rw [List.foldl_cons, ih _ j (fun e he => h e (by simp [he])),
      List.getElem?_set_ne (h item (by simp))]

theorem foldlSet_getElem?_mem (data : List EmbItem) :
    ∀ (acc : List Vec) (e : EmbItem), (data.map (fun x => x.index)).Nodup →
      e ∈ data → e.index < acc.length →
      (data.foldl (fun a x => a.set x.index x.embedding) acc)[e.index]? =
        some e.embedding := by
  induction data with
  | nil => intro _ e _ he _; cases he
  | cons item rest ih =>
    intro acc e hnd he hlt
    rw [List.map_cons, List.nodup_cons] at hnd
    rw [List.foldl_cons]
    rcases List.mem_cons.mp he with he1 | he2
    · subst he1
      rw [foldlSet_getElem?_not_mem rest _ _
        (fun x hx hix => hnd.1 (by rw [← hix]; exact List.mem_map_of_mem _ hx))]
      rw [List.getElem?_set_self]
      simp [hlt]
    · exact ih _ e hnd.2 he2 (by rw [List.length_set]; exact hlt)

/-- If the first attempt answers 200 with a body whose `data` array is some
permutation of one entry per index `0 ≤ j < m`, `generateBatch` reassembles
the vectors in index order. -/
theorem generateBatch_ok (ts : List Str) (attempts : Nat → Attempt)
    (data : List EmbItem) (m : Nat) (f : Nat → Vec)
    (h0 : attempts 0 = .response 200 (some data))
    (hperm : data.Perm ((List.range m).map (fun j => ⟨j, f j⟩))) :
    generateBatch ts attempts = .ok ((List.range m).map f) := by
  have hlen : data.length = m := by simpa using hperm.length_eq
  have hmem : ∀ e ∈ data, ∃ j, j < m ∧ e = ⟨j, f j⟩ := by
    intro e he
    obtain ⟨j, hj, hje⟩ := List.mem_map.mp (hperm.mem_iff.mp he)
    exact ⟨j, List.mem_range.mp hj, hje.symm⟩
  have hnd : (data.map (fun x => x.index)).Nodup := by
    refine ((hperm.map (fun x => x.index)).nodup_iff).mpr ?_
    have hcm : ((List.range m).map (fun j => (⟨j, f j⟩ : EmbItem))).map
        (fun x => x.index) = List.range m := by
      rw [List.map_map]
      exact List.map_id'' (fun j => rfl) (List.range m)
    rw [hcm]
    exact List.nodup_range m
  have hr : retryLoop attempts 3 0 none = .ok (some (200, some data)) :=
    retryLoop_first200 attempts 2 0 none (some data) h0
  unfold generateBatch
  rw [hr]
  show fillEmbeddings (List.replicate data.length []) data =
    .ok ((List.range m).map f)
  rw [fillEmbeddings_eq_foldl data (List.replicate data.length [])
    (fun e he => by
      obtain ⟨j, hj, hje⟩ := hmem e he
      rw [List.length_replicate, hlen, hje]
      exact hj)]
  congr 1
  have hlens : (data.foldl (fun a e => a.set e.index e.embedding)
      (List.replicate data.length [])).length = m := by
    rw [foldlSet_length, List.length_replicate, hlen]
  apply List.ext_getElem?
  intro i
  by_cases hi : i < m
  · have hein : (⟨i, f i⟩ : EmbItem) ∈ data :=
      hperm.mem_iff.mpr (List.mem_map_of_mem _ (List.mem_range.mpr hi))
    have hsome : (data.foldl (fun a e => a.set e.index e.embedding)
          (List.replicate data.length []))[i]? = some (f i) :=
      foldlSet_getElem?_mem data (List.replicate data.length []) ⟨i, f i⟩ hnd hein
        (by rw [List.length_replicate, hlen]; exact hi)
    rw [hsome, List.getElem?_map]
    simp [List.getElem?_range, hi]
  · have h1 : (data.foldl (fun a e => a.set e.index e.embedding)
        (List.replicate data.length [])).length ≤ i := by
      rw [hlens]; omega
    have h2 : ((List.range m).map f).length ≤ i := by
      simp; omega
    rw [List.getElem?_eq_none h1, List.getElem?_eq_none h2]

/-- The batching loop, processed from batch `b0` with `rb` iterations left,
returns the canonical concatenation of the per-batch reassembled vectors. -/
theorem batchesLoop_ok (texts : List Str) (oracle : Nat → Nat → Attempt)
    (dataFn : Nat → List EmbItem) (embOf : Nat → Nat → Vec)
    (horacle : ∀ b, b < (texts.length + 99) / 100 →
      oracle b 0 = .response 200 (some (dataFn b)) ∧
      (dataFn b).Perm ((List.range ((texts.drop (100 * b)).take 100).length).map
        (fun j => (⟨j, embOf b j⟩ : EmbItem)))) :
    ∀ rb b0, b0 + rb = (texts.length + 99) / 100 →
      batchesLoop texts oracle rb (100 * b0) =
        .ok ((List.range (texts.length - 100 * b0)).map
          (fun k => embOf (b0 + k / 100) (k % 100))) := by
  intro rb
  induction rb with
  | zero =>
    intro b0 hb0
    have hz : texts.length - 100 * b0 = 0 := by omega
    rw [hz]
    rfl
  | succ n ih =>
    intro b0 hb0
    have hblt : b0 < (texts.length + 99) / 100 := by omega
    have hlow : 100 * b0 < texts.length := by omega
    obtain ⟨ho, hp⟩ := horacle b0 hblt
    have hdiv : (100 * b0) / 100 = b0 := by omega
    have hbatch := generateBatch_ok ((texts.drop (100 * b0)).take 100) (oracle b0)
      (dataFn b0) ((texts.drop (100 * b0)).take 100).length (embOf b0) ho hp
    rw [batchesLoop, hdiv, hbatch]
    have hstep : 100 * b0 + 100 = 100 * (b0 + 1) := by ring
    rw [hstep, ih (b0 + 1) (by omega)]
    have hM : ((texts.drop (100 * b0)).take 100).length =
        min 100 (texts.length - 100 * b0) := by
      rw [List.length_take, List.length_drop]
    show (Except.ok
        (((List.range ((texts.drop (100 * b0)).take 100).length).map (embOf b0)) ++
          ((List.range (texts.length - 100 * (b0 + 1))).map
            (fun k => embOf (b0 + 1 + k / 100) (k % 100)))) :
        Except EmbError (List Vec)) =
      .ok ((List.range (texts.length - 100 * b0)).map
        (fun k => embOf (b0 + k / 100) (k % 100)))
    congr 1
    have hsum : texts.length - 100 * b0 =
        ((texts.drop (100 * b0)).take 100).length + (texts.length - 100 * (b0 + 1)) := by
      omega
    rw [hsum, List.range_add, List.map_append, List.map_map]
    congr 1
    · apply List.map_congr_left
      intro k hk
      have hkM : k < ((texts.drop (100 * b0)).take 100).length := List.mem_range.mp hk
      show embOf b0 k = embOf (b0 + k / 100) (k % 100)
      have h1 : b0 + k / 100 = b0 := by omega
      have h2 : k % 100 = k := by omega
      rw [h1, h2]
    · apply List.map_congr_left
      intro k hk
      have hkr : k < texts.length - 100 * (b0 + 1) := List.mem_range.mp hk
      have hM100 : ((texts.drop (100 * b0)).take 100).length = 100 := by omega
      show embOf (b0 + 1 + k / 100) (k % 100) =
        embOf (b0 + (((texts.drop (100 * b0)).take 100).length + k) / 100)
          ((((texts.drop (100 * b0)).take 100).length + k) % 100)
      rw [hM100]
      have h1 : b0 + (100 + k) / 100 = b0 + 1 + k / 100 := by omega
      have h2 : (100 + k) % 100 = k % 100 := by omega
      rw [h1, h2]

/-! ### Claim C4 — one vector per input, in input order -/

/-- C4: for every non-empty text list and every oracle whose batches all
answer 200 on the first attempt with a `data` array holding exactly one
entry per batch position (in any order — a permutation reassembled through
the declared `index` field), `GenerateEmbeddings` returns exactly one vector
per input text, in input order: position `k` of the output is the vector the
API declared for index `k % 100` of batch `k / 100`.  The statement covers
input lists below and above the 100-element batch size alike. -/
theorem C4_embeddings_order (texts : List Str) (oracle : Nat → Nat → Attempt)
    (dataFn : Nat → List EmbItem) (embOf : Nat → Nat → Vec)
    (hne : texts ≠ [])
    (horacle : ∀ b, b < (texts.length + 99) / 100 →
      oracle b 0 = .response 200 (some (dataFn b)) ∧
      (dataFn b).Perm ((List.range ((texts.drop (100 * b)).take 100).length).map
        (fun j => (⟨j, embOf b j⟩ : EmbItem)))) :
    generateEmbeddings texts oracle =
      .ok ((List.range texts.length).map (fun k => embOf (k / 100) (k % 100))) := by
  have h0 : ¬ texts.length = 0 := fun h => hne (List.length_eq_zero.mp h)
  unfold generateEmbeddings
  rw [if_neg h0]
  have := batchesLoop_ok texts oracle dataFn embOf horacle
    ((texts.length + 99) / 100) 0 (by omega)
  simpa using this

/-- C4 witness: 101 texts (above the batch size), canonical responses;
the output is the 101 declared vectors in input order. -/
theorem C4_witness :
    (List.replicate 101 (['t'] : Str)) ≠ [] ∧
    generateEmbeddings (List.replicate 101 (['t'] : Str))
        (oracleCanonical (List.replicate 101 (['t'] : Str))
          (fun b j => [Int.ofNat (100 * b + j)])) =
      .ok ((List.range 101).map
        (fun k => [Int.ofNat (100 * (k / 100) + k % 100)])) := by
  constructor
  · decide
  · have h := C4_embeddings_order (List.replicate 101 (['t'] : Str))
      (oracleCanonical (List.replicate 101 (['t'] : Str))
        (fun b j => [Int.ofNat (100 * b + j)]))
      (fun b => (List.range (((List.replicate 101 (['t'] : Str)).drop (100 * b)).take 100).length).map
        (fun j => (⟨j, [Int.ofNat (100 * b + j)]⟩ : EmbItem)))
      (fun b j => [Int.ofNat (100 * b + j)])
      (by decide)
      (fun b _hb => ⟨rfl, List.Perm.refl _⟩)
    simpa using h

/-! ### Claim C5 — embedding failure conditions -/

/-- C5 evaluation at the failing inputs.  First conjunct: an oracle that
answers HTTP 429 on all three attempts, the last body decoding to a JSON
object with no `data` entries.  The Go code performs no status check after
the retry loop, decodes the final 429 body, and returns success with ZERO
embeddings for one input — the claim says exhausted retries must yield an
error and a partial/empty success is never returned.  Second conjunct: a
well-formed 200 response whose `data` array misses index 1 for a two-text
batch is not rejected either — the claim says missing indices are a
malformed response that must fail — and yields a one-vector success. -/
theorem C5_evaluation :
    generateEmbeddings [['x']] oracle429 = .ok [] ∧
    generateBatch [['a'], ['b']]
        (fun _ => .response 200 (some [⟨0, [7]⟩])) = .ok [[7]] :=
  ⟨rfl, rfl⟩

/-! ### Claim C3 — chunker start-offset progress and termination -/

/-- C3 counterexample: with `chunkSize = 25`, `overlap = 24` (so
`0 ≤ O < L`) on the 30-character `text30`, the first iteration breaks at
offset 7 and the code computes the next start as `max(7 - 24, 0) = 0`, equal
to the previous start — no strict forward progress — and the loop never
terminates (modelled as `none` under the canonical fuel; see
`chunkLoop_diverges_on_text30`).  The code clamps the next start below at
`0`, not at the previous start as claimed. -/
theorem C3_counterexample :
    24 < 25 ∧ 25 < text30.length ∧
    breakPointAt text30 25 0 = 7 ∧
    nextStart (breakPointAt text30 25 0) 24 = 0 ∧
    chunkText text30 25 24 = none := by
  decide

/-- C3 (amended): the next start is `breakPoint - O` clamped below at `0`
(not at the previous start) and never exceeding the breakpoint; strict
forward progress — and hence termination — holds whenever
`O + max(L / 5, 20) ≤ L`, which the production parameters `L = 500, O = 50`
satisfy. -/
theorem C3_progress_and_termination (text : Str) (L O : Nat)
    (hO : O + searchRange L ≤ L) :
    (∀ start, start + L < text.length →
        nextStart (breakPointAt text L start) O = breakPointAt text L start - O ∧
        start < nextStart (breakPointAt text L start) O ∧
        nextStart (breakPointAt text L start) O ≤ breakPointAt text L start) ∧
    ∃ cs, chunkText text L O = some cs := by
  constructor
  · intro start hlen
    obtain ⟨h1, h2⟩ := nextStart_progress hO hlen
    exact ⟨nextStart_eq _ _, h1, h2⟩
  · obtain ⟨cs, hcs, -⟩ := chunkText_terminates text hO
    exact ⟨cs, hcs⟩

/-- C3 witness: the amended statement applied at `text30`, `L = 25`,
`O = 1`. -/
theorem C3_witness :
    (1 + searchRange 25 ≤ 25) ∧
    ((∀ start, start + 25 < text30.length →
        nextStart (breakPointAt text30 25 start) 1 = breakPointAt text30 25 start - 1 ∧
        start < nextStart (breakPointAt text30 25 start) 1 ∧
        nextStart (breakPointAt text30 25 start) 1 ≤ breakPointAt text30 25 start) ∧
      ∃ cs, chunkText text30 25 1 = some cs) :=
  ⟨by decide, C3_progress_and_termination text30 25 1 (by decide)⟩

/-! ### Claim C6 — texts no longer than the chunk size -/

/-- C6 counterexample: the empty text has length `≤ L`, but `ChunkText`
returns `nil` (the empty list), not the one-element list containing the
empty text. -/
theorem C6_counterexample :
    ([] : Str).length ≤ 5 ∧ chunkText [] 5 1 = some [] ∧
    chunkText [] 5 1 ≠ some [([] : Str)] := by
  decide

/-- C6 (amended): for every NON-EMPTY text of length at most the chunk
size, the chunker returns exactly the one-element list containing the text
itself; the empty text yields the empty chunk list instead. -/
theorem C6_single_chunk (T : Str) (L O : Nat) (hne : T ≠ []) (hle : T.length ≤ L) :
    chunkText T L O = some [T] := by
  have h0 : ¬ T.length = 0 := fun h => hne (List.length_eq_zero.mp h)
  unfold chunkText
  rw [if_neg h0, if_pos hle]

/-- C6 witness: the amended statement applied at the two-character text
`hi` with `L = 5`. -/
theorem C6_witness :
    (['h', 'i'] : Str) ≠ [] ∧ (['h', 'i'] : Str).length ≤ 5 ∧
    chunkText ['h', 'i'] 5 0 = some [['h', 'i']] :=
  ⟨by decide, by decide, C6_single_chunk ['h', 'i'] 5 0 (by decide) (by decide)⟩

/-! ### Claim C7 — overlap-removing reconstruction -/

/-- C7 counterexample: at `L = 25`, `O = 24` (within the claimed range
`0 ≤ O < L`) the chunker produces no chunk list at all on `text30` — the
loop diverges — so no reconstruction equation can hold there. -/
theorem C7_counterexample :
    24 < 25 ∧ ¬ ∃ cs, chunkText text30 25 24 = some cs ∧ reconstruct 24 cs = text30 := by
  refine ⟨by decide, ?_⟩
  rintro ⟨cs, hcs, -⟩
  have hnone : chunkText text30 25 24 = none := by decide
  rw [hnone] at hcs
  exact Option.noConfusion hcs

/-- C7 (amended): whenever `O + max(L / 5, 20) ≤ L` (true of the production
parameters `L = 500, O = 50`), the chunker terminates and its output,
after dropping the first `O` characters of every chunk but the first,
concatenates back to the input exactly. -/
theorem C7_reconstruction (text : Str) (L O : Nat) (hO : O + searchRange L ≤ L) :
    ∃ cs, chunkText text L O = some cs ∧ reconstruct O cs = text :=
  chunkText_terminates text hO

/-- C7 witness: the amended statement applied at `text30`, `L = 25`,
`O = 1`. -/
theorem C7_witness :
    (1 + searchRange 25 ≤ 25) ∧
    ∃ cs, chunkText text30 25 1 = some cs ∧ reconstruct 1 cs = text30 :=
  ⟨by decide, C7_reconstruction text30 25 1 (by decide)⟩

/-! ### Claim C1 — search/query on an owner with no collection -/

/-- C1 evaluation: `VectorRepository.Search` in the repository is a stub
that returns the error "search not fully implemented yet" for every input —
in particular for an owner with no collection (here: the empty state, which
holds no collection for `u1`) it returns that error, not an empty result —
and `RAGService.Query` propagates it, failing with an error instead of
producing a "no information found" answer. -/
theorem C1_evaluation :
    vectorSearch sEmpty u1 [1] 5 = .error .searchNotImplemented ∧
    (¬ ∃ c ∈ sEmpty.collections, c.1 = getCollectionName u1) ∧
    (ragQuery oracleOneVec llmOK sEmpty u1 ['q']).1 = .error .searchNotImplemented :=
  ⟨rfl, by decide, rfl⟩

/-! ### Claim C2 — duplicate upload -/

/-- C2 counterexample: `sHello` already records `(u1, hash(helloContent))`;
re-uploading the identical bytes yields an ERROR (the insert rejected by the
unique `(user_id, file_hash)` constraint), not a non-error duplicate signal,
and the trace shows the content was re-chunked and re-embedded
(`embedCall`) and re-written to storage (`storPut`) — there is no
short-circuit before processing. -/
theorem C2_counterexample :
    (∃ d ∈ sHello.documents, d.userID = u1 ∧ d.fileHash = hashId fileTxt.content) ∧
    (uploadDocument hashId oracleOneVec sHello u1 fileTxt).1 = .error .createFailed ∧
    (uploadDocument hashId oracleOneVec sHello u1 fileTxt).2.1.documents =
      sHello.documents ∧
    Event.embedCall [helloContent] ∈ (uploadDocument hashId oracleOneVec sHello u1 fileTxt).2.2 ∧
    Event.storPut docHello.storagePath ∈
      (uploadDocument hashId oracleOneVec sHello u1 fileTxt).2.2 :=
  ⟨by decide, rfl, rfl, by decide, by decide⟩

/-- C2 (amended): when a Document row with the same owner and content hash
already exists, re-uploading the identical bytes creates no second Document
row and no vector records (the unique constraint rejects the insert), but
the service does NOT short-circuit: it re-chunks, re-embeds and re-writes
the object before the insert fails, and the caller receives an error, not a
non-error duplicate signal. -/
theorem C2_duplicate_upload_errors (hashFn : Str → Str)
    (oracle : Nat → Nat → Attempt) (s : SysState) (userID : Str)
    (file : UploadFile) (embs : List Vec)
    (hext : lowerExt file.filename ∈ allowedExtensions)
    (hsize : ¬ file.size > maxFileSize)
    (hchunks : ¬ ((chunkText file.content 500 50).getD []).isEmpty = true)
    (hemb : generateEmbeddings ((chunkText file.content 500 50).getD []) oracle = .ok embs)
    (hdup : ∃ d ∈ s.documents, d.userID = userID ∧ d.fileHash = hashFn file.content) :
    uploadDocument hashFn oracle s userID file =
      (.error .createFailed,
       storagePut s (userID ++ ('/' :: hashFn file.content) ++ ('/' :: file.filename))
         file.content,
       [.embedCall ((chunkText file.content 500 50).getD []),
        .storPut (userID ++ ('/' :: hashFn file.content) ++ ('/' :: file.filename))]) ∧
    (storagePut s (userID ++ ('/' :: hashFn file.content) ++ ('/' :: file.filename))
        file.content).documents = s.documents ∧
    (storagePut s (userID ++ ('/' :: hashFn file.content) ++ ('/' :: file.filename))
        file.content).vectors = s.vectors := by
  refine ⟨?_, rfl, rfl⟩
  have hdupb : ((storagePut s (userID ++ ('/' :: hashFn file.content) ++ ('/' :: file.filename))
      file.content).documents.any
      (fun d0 => d0.userID == userID && d0.fileHash == hashFn file.content)) = true := by
    obtain ⟨d, hd, h1, h2⟩ := hdup
    exact List.any_eq_true.mpr ⟨d, hd, by simp [h1, h2]⟩
  have hdc : docCreate
      (storagePut s (userID ++ ('/' :: hashFn file.content) ++ ('/' :: file.filename))
        file.content)
      { id := [], userID := userID, filename := file.filename,
        fileType := lowerExt file.filename, fileSize := file.size,
        fileHash := hashFn file.content,
        storagePath := userID ++ ('/' :: hashFn file.content) ++ ('/' :: file.filename),
        totalChunks := ((chunkText file.content 500 50).getD []).length } =
      .error .createFailed := by
    unfold docCreate
    rw [if_pos hdupb]
  simp only [uploadDocument]
  rw [if_neg (fun hc => hc hext), if_neg hsize, if_neg hchunks]
  simp only [hemb, hdc]

/-- C2 witness: the amended statement applied at the concrete duplicate
state `sHello` with the re-upload `fileTxt`. -/
theorem C2_witness :
    (lowerExt fileTxt.filename ∈ allowedExtensions) ∧
    (∃ d ∈ sHello.documents, d.userID = u1 ∧ d.fileHash = hashId fileTxt.content) ∧
    (uploadDocument hashId oracleOneVec sHello u1 fileTxt =
      (.error .createFailed,
       storagePut sHello (u1 ++ ('/' :: hashId fileTxt.content) ++ ('/' :: fileTxt.filename))
         fileTxt.content,
       [.embedCall ((chunkText fileTxt.content 500 50).getD []),
        .storPut (u1 ++ ('/' :: hashId fileTxt.content) ++ ('/' :: fileTxt.filename))]) ∧
      (storagePut sHello (u1 ++ ('/' :: hashId fileTxt.content) ++ ('/' :: fileTxt.filename))
          fileTxt.content).documents = sHello.documents ∧
      (storagePut sHello (u1 ++ ('/' :: hashId fileTxt.content) ++ ('/' :: fileTxt.filename))
          fileTxt.content).vectors = sHello.vectors) :=
  ⟨by decide, by decide,
    C2_duplicate_upload_errors hashId oracleOneVec sHello u1 fileTxt [[1]]
      (by decide) (by decide) (by decide) rfl (by decide)⟩

/-! ### Claim C8 — document deletion -/

/-- C8 evaluation: deleting an owned document deletes the stored OBJECT
first (`storDel` precedes `vecDelete` in the trace), then always fails at
the stubbed `DeleteByDocumentID` ("delete by document ID not fully
implemented yet"), leaving the metadata row in place — the claimed order
(vectors, then object, then metadata) and the claimed idempotent,
error-free inverse do not hold on this code. -/
theorem C8_evaluation :
    deleteDocument sHello u1 docHello.id =
      (.error .deleteVectorsNotImplemented,
       storageDelete sHello docHello.storagePath,
       [.storDel docHello.storagePath, .vecDelete u1 docHello.id]) ∧
    (storageDelete sHello docHello.storagePath).objects = [] ∧
    (storageDelete sHello docHello.storagePath).documents = sHello.documents :=
  ⟨rfl, by decide, rfl⟩

/-! ### Claim C9 — validation before any I/O -/

/-- C9: an upload whose (lower-cased) extension is off the allow-list, or
whose declared size exceeds 10 MB, is rejected with the corresponding
validation error before any side effect: the state is returned unchanged
and the event trace is empty — no storage write, no metadata write, no
embedding call, no vector operation. -/
theorem C9_validation_rejects_before_effects (hashFn : Str → Str)
    (oracle : Nat → Nat → Attempt) (s : SysState) (userID : Str) (file : UploadFile)
    (h : ¬ lowerExt file.filename ∈ allowedExtensions ∨ file.size > maxFileSize) :
    ∃ e, uploadDocument hashFn oracle s userID file = (.error e, s, []) ∧
      (e = SvcError.unsupportedType (lowerExt file.filename) ∨ e = SvcError.fileTooLarge) := by
  simp only [uploadDocument]
  by_cases hext : lowerExt file.filename ∈ allowedExtensions
  · have hsize : file.size > maxFileSize := h.resolve_left (fun hc => hc hext)
    rw [if_neg (fun hc => hc hext), if_pos hsize]
    exact ⟨.fileTooLarge, rfl, .inr rfl⟩
  · rw [if_pos hext]
    exact ⟨.unsupportedType (lowerExt file.filename), rfl, .inl rfl⟩

/-- C9 witness: uploading `virus.exe` is rejected with the unsupported-type
error, with unchanged state and an empty effect trace. -/
theorem C9_witness :
    (¬ lowerExt fileExe.filename ∈ allowedExtensions ∨ fileExe.size > maxFileSize) ∧
    ∃ e, uploadDocument hashId oracleOneVec sEmpty u1 fileExe = (.error e, sEmpty, []) ∧
      (e = SvcError.unsupportedType (lowerExt fileExe.filename) ∨ e = SvcError.fileTooLarge) :=
  ⟨Or.inl (by decide),
    C9_validation_rejects_before_effects hashId oracleOneVec sEmpty u1 fileExe
      (Or.inl (by decide))⟩

/-! ### Claim C10 — cross-owner access -/

/-- C10: when the stored owner of a document differs from the caller,
`GetDocument` returns the "unauthorized" error instead of the document, and
`DeleteDocument` (which re-uses `GetDocument`) returns the same error with
the state unchanged and an empty effect trace — nothing belonging to the
other user is returned or deleted. -/
theorem C10_cross_owner_access_denied (s : SysState) (uid docId : Str) (d : Document)
    (hfind : s.documents.find? (fun x => x.id == docId) = some d)
    (hown : d.userID ≠ uid) :
    getDocument s uid docId = .error .unauthorized ∧
    deleteDocument s uid docId = (.error .unauthorized, s, []) := by
  have h1 : docGetByID s docId = .ok d := by
    unfold docGetByID
    rw [hfind]
  have hget : getDocument s uid docId = .error .unauthorized := by
    unfold getDocument
    rw [h1]
    show (if ¬ d.userID = uid then Except.error SvcError.unauthorized else Except.ok d) = _
    rw [if_pos hown]
  refine ⟨hget, ?_⟩
  unfold deleteDocument
  rw [hget]

/-- C10 witness: `u1` requesting `u2`'s document `d9` is denied on both
operations, with no state change. -/
theorem C10_witness :
    sOther.documents.find? (fun x => x.id == docOther.id) = some docOther ∧
    docOther.userID ≠ u1 ∧
    getDocument sOther u1 docOther.id = .error .unauthorized ∧
    deleteDocument sOther u1 docOther.id = (.error .unauthorized, sOther, []) := by
  have h := C10_cross_owner_access_denied sOther u1 docOther.id docOther
    (by decide) (by decide)
  exact ⟨by decide, by decide, h.1, h.2⟩

end RagSpec
